import Mathlib

/-!
Verification development for the Janus SkyWay IoT plugin
(src/plugins/janus_skywayiot.c).

The C source is shallowly embedded: each plugin entry point relevant to the
properties under study is translated into a pure Lean function over an
explicit session / registry state, and the observable effects (RTCP packets
relayed to the peer, JSON events pushed, datagrams written to the external
sockets) are collected in an output list.
-/

namespace SkywayIoT

/-- JSON values as far as the plugin's request parsing distinguishes them
(jansson `json_t`): booleans, integers, strings, and anything else. -/
inductive JVal
| jbool (b : Bool)
| jint (n : Int)
| jstr (s : String)
| jother
deriving DecidableEq

/-- `json_is_boolean`. -/
def json_is_boolean : JVal → Bool
| .jbool _ => true
| _ => false

/-- `json_is_integer`. -/
def json_is_integer : JVal → Bool
| .jint _ => true
| _ => false

/-- `json_is_string`. -/
def json_is_string : JVal → Bool
| .jstr _ => true
| _ => false

/-- `json_is_true`. -/
def json_is_true : JVal → Bool
| .jbool b => b
| _ => false

/-- `json_integer_value`: the integer value, `0` on non-integers. -/
def json_integer_value : JVal → Int
| .jint n => n
| _ => 0

/-- The request object's fields, as read by `json_object_get` in
`janus_skywayiot_handler` (lines 796-830): each field is either absent
(`NULL` pointer) or present with some JSON value. -/
structure ReqObj where
  audio : Option JVal := none
  video : Option JVal := none
  bitrate : Option JVal := none
  record : Option JVal := none
  filename : Option JVal := none
deriving DecidableEq

/-- The message body (`msg->message`): absent (`NULL`), a non-object JSON
value, or a JSON object. -/
inductive ReqBody
| absent
| notObject
| obj (o : ReqObj)
deriving DecidableEq

/-- An SDP media description, an opaque character sequence manipulated by
substring search and replacement only. -/
abbrev Sdp := List Char

/-- A JSEP payload as read at lines 794-795: a `type` string and an `sdp`
string. (The handler reads the two fields independently; the claims under
study only concern well-formed payloads carrying both.) -/
structure Jsep where
  sdpType : String
  sdp : Sdp
deriving DecidableEq

/-- `janus_skywayiot_session` (lines 192-207), restricted to the fields the
claims observe.  Recorders are tracked as presence flags.  Defaults are the
values set by `janus_skywayiot_create_session` (lines 429-451). -/
structure Session where
  hasAudio : Bool := false
  hasVideo : Bool := false
  hasData : Bool := false
  audioActive : Bool := true
  videoActive : Bool := true
  bitrate : Nat := 0
  arc : Bool := false
  vrc : Bool := false
  drc : Bool := false
  slowlinkCount : Nat := 0
  hangingup : Nat := 0
  destroyed : Nat := 0
deriving DecidableEq

/-- RTCP control packets the plugin synthesizes and relays to the peer. -/
inductive RtcpPkt
| pli
| remb (bitrate : Nat)
deriving DecidableEq

/-- JSON events pushed to the peer via `gateway->push_event`. -/
inductive Ev
| ok (jsep : Option (Option String × Sdp))
| err (code : Nat) (cause : String)
| slowLink (bitrate : Nat)
| done
deriving DecidableEq

/-- Observable outputs of a plugin entry point: RTCP packets relayed to the
peer, and events pushed (with the transaction the push carries, `none` for
`NULL`). -/
inductive Out
| rtcp (video : Bool) (p : RtcpPkt)
| push (tx : Option String) (e : Ev)
deriving DecidableEq

/-- `strstr(hay, pat) != NULL`: `pat` occurs as a contiguous substring. -/
def strstr (hay pat : Sdp) : Bool := decide (pat <:+: hay)

/-- Fuel-indexed worker for `replaceAll`; the fuel is always at least the
length of the string, so the first equation never fires on the wrapper. -/
def replaceAllAux (pat rep : Sdp) : Nat → Sdp → Sdp
| 0, s => s
| _ + 1, [] => []
| fuel + 1, c :: cs =>
  if pat.isPrefixOf (c :: cs) ∧ pat ≠ [] then
    rep ++ replaceAllAux pat rep fuel (cs.drop (pat.length - 1))
  else
    c :: replaceAllAux pat rep fuel cs

/-- Modelled from the spec: the host gateway's `janus_string_replace` helper
(declared in `../utils.h`, outside this repository) replaces every
occurrence of a literal substring, scanning left to right and continuing
after each replacement.  The spec describes the rewriting as "a small,
explicitly ordered list of literal find/replace rules operating on an
opaque string type". -/
def replaceAll (pat rep s : Sdp) : Sdp := replaceAllAux pat rep s.length s

/-- The literal `"a=recvonly"`. -/
def recvonlyL : Sdp := "a=recvonly".toList

/-- The literal `"a=inactive"`. -/
def inactiveL : Sdp := "a=inactive".toList

/-- The literal `"a=sendonly"`. -/
def sendonlyL : Sdp := "a=sendonly".toList

/-- The literal `"ulpfec"`. -/
def ulpfecL : Sdp := "ulpfec".toList

/-- The ordered RTX/FEC stripping rules of lines 1009-1021 (all replace with
the empty string). -/
def fecRules : List Sdp :=
  [ "a=rtpmap:116 red/90000\r\n".toList
  , "a=rtpmap:117 ulpfec/90000\r\n".toList
  , "a=rtpmap:96 rtx/90000\r\n".toList
  , "a=fmtp:96 apt=100\r\n".toList
  , "a=rtpmap:97 rtx/90000\r\n".toList
  , "a=fmtp:97 apt=101\r\n".toList
  , "a=rtpmap:98 rtx/90000\r\n".toList
  , "a=fmtp:98 apt=116\r\n".toList
  , " 116".toList
  , " 117".toList
  , " 96".toList
  , " 97".toList
  , " 98".toList ]

/-- Apply the FEC stripping rules in order (lines 1007-1022 body). -/
def stripFec (s : Sdp) : Sdp := fecRules.foldl (fun acc r => replaceAll r [] acc) s

/-- The SDP direction/codec rewrite of lines 996-1022: `a=recvonly` becomes
`a=inactive`; otherwise (only when no `a=recvonly` occurs) `a=sendonly`
becomes `a=recvonly`; then, if `ulpfec` occurs in the result, the RTX/FEC
rules are applied. -/
def rewriteSdp (sdp : Sdp) : Sdp :=
  let s1 :=
    if strstr sdp recvonlyL then replaceAll recvonlyL inactiveL sdp
    else if strstr sdp sendonlyL then replaceAll sendonlyL recvonlyL sdp
    else sdp
  if strstr s1 ulpfecL then stripFec s1 else s1

/-- ASCII lower-casing of one character, as `strcasecmp` compares. -/
def asciiLower (c : Char) : Char :=
  if 'A' ≤ c ∧ c ≤ 'Z' then Char.ofNat (c.toNat + 32) else c

/-- `strcasecmp(a, b) == 0`: ASCII case-insensitive string equality. -/
def strcasecmpEq (a b : String) : Bool :=
  a.toList.map asciiLower == b.toList.map asciiLower

/-- The response type inversion of lines 991-995 (`strcasecmp` against
`offer` and `answer`); `none` models the `type` variable staying `NULL`. -/
def invertType (t : String) : Option String :=
  if strcasecmpEq t "offer" then some "answer"
  else if strcasecmpEq t "answer" then some "offer"
  else none

/-- Error cause for a `NULL` message body (line 784). -/
def noMsgCause : String := "No message??"

/-- Error cause for a non-object body (line 790). -/
def notObjectCause : String := "JSON error: not an object"

/-- Error cause for a non-boolean `audio` (line 800). -/
def audioCause : String := "Invalid value (audio should be a boolean)"

/-- Error cause for a non-boolean `video` (line 807). -/
def videoCause : String := "Invalid value (video should be a boolean)"

/-- Error cause for a bad `bitrate` (line 814). -/
def bitrateCause : String := "Invalid value (bitrate should be a positive integer)"

/-- Error cause for a non-boolean `record` (line 821). -/
def recordCause : String := "Invalid value (record should be a boolean)"

/-- Error cause for a non-string `filename` (line 828). -/
def filenameCause : String := "Invalid value (filename should be a string)"

/-- Error cause for a request with no supported attribute (line 977). -/
def noAttrCause : String :=
  "Message error: no supported attributes (audio, video, bitrate, record, jsep) found"

/-- The field type validation of lines 796-830, in source order, returning
the first failing check's cause (`error_code` is 413 for all of them). -/
def checkTypes (o : ReqObj) : Option String :=
  if o.audio.any (fun v => !(json_is_boolean v)) then some audioCause
  else if o.video.any (fun v => !(json_is_boolean v)) then some videoCause
  else if o.bitrate.any (fun v => !(json_is_integer v) || decide (json_integer_value v < 0)) then
    some bitrateCause
  else if o.record.any (fun v => !(json_is_boolean v)) then some recordCause
  else if o.filename.any (fun v => !(json_is_string v)) then some filenameCause
  else none

/-- Lines 832-835: `audio` present sets `audio_active`. -/
def applyAudio (s : Session) (o : ReqObj) : Session :=
  match o.audio with
  | some v => { s with audioActive := json_is_true v }
  | none => s

/-- Lines 836-847: `video` present sends a PLI when transitioning from
inactive to active, then sets `video_active`. -/
def applyVideo (s : Session) (o : ReqObj) : Session × List Out :=
  match o.video with
  | some v =>
    ({ s with videoActive := json_is_true v },
     if !s.videoActive && json_is_true v then [Out.rtcp true RtcpPkt.pli] else [])
  | none => (s, [])

/-- Lines 848-860: `bitrate` present sets the cap; a non-zero cap triggers an
immediate REMB at the new cap.  (Validation guarantees the value is a
non-negative integer, so `Int.toNat` is exact.) -/
def applyBitrate (s : Session) (o : ReqObj) : Session × List Out :=
  match o.bitrate with
  | some v =>
    let b := (json_integer_value v).toNat
    ({ s with bitrate := b },
     if 0 < b then [Out.rtcp true (RtcpPkt.remb b)] else [])
  | none => (s, [])

/-- `strstr(msg_sdp, "m=audio")` (line 863/969). -/
def sdpHasAudio (sdp : Sdp) : Bool := strstr sdp "m=audio".toList

/-- `strstr(msg_sdp, "m=video")` (line 864/970). -/
def sdpHasVideo (sdp : Sdp) : Bool := strstr sdp "m=video".toList

/-- `strstr(msg_sdp, "DTLS/SCTP")` (line 865/971). -/
def sdpHasData (sdp : Sdp) : Bool := strstr sdp "DTLS/SCTP".toList

/-- Lines 861-965: `record` present refreshes the `has_*` flags from the SDP
(when one is attached), then closes all recorders (recording disabled) or
opens a recorder per negotiated medium, sending a PLI when video recording
starts.  Recorders are modelled as presence flags. -/
def applyRecord (s : Session) (o : ReqObj) (sdpOpt : Option Sdp) : Session × List Out :=
  match o.record with
  | none => (s, [])
  | some v =>
    let s1 := match sdpOpt with
      | some sdp =>
        { s with hasAudio := sdpHasAudio sdp, hasVideo := sdpHasVideo sdp,
                 hasData := sdpHasData sdp }
      | none => s
    if json_is_true v then
      ({ s1 with arc := s1.hasAudio || s1.arc, vrc := s1.hasVideo || s1.vrc,
                 drc := s1.hasData || s1.drc },
       if s1.hasVideo then [Out.rtcp true RtcpPkt.pli] else [])
    else
      ({ s1 with arc := false, vrc := false, drc := false }, [])

/-- Lines 966-972: an attached SDP sets the `has_*` flags. -/
def applySdp (s : Session) (sdpOpt : Option Sdp) : Session :=
  match sdpOpt with
  | some sdp =>
    { s with hasAudio := sdpHasAudio sdp, hasVideo := sdpHasVideo sdp,
             hasData := sdpHasData sdp }
  | none => s

/-- The enforcement section of the handler (lines 831-972), in source order. -/
def enforce (s : Session) (o : ReqObj) (sdpOpt : Option Sdp) : Session × List Out :=
  let s1 := applyAudio s o
  let pv := applyVideo s1 o
  let pb := applyBitrate pv.1 o
  let pr := applyRecord pb.1 o sdpOpt
  (applySdp pr.1 sdpOpt, pv.2 ++ pb.2 ++ pr.2)

/-- Line 974: no supported attribute present. -/
def noActionable (o : ReqObj) (sdpOpt : Option Sdp) : Bool :=
  o.audio.isNone && o.video.isNone && o.bitrate.isNone && o.record.isNone && sdpOpt.isNone

/-- Processing of one dequeued message for a live session: the body of the
`janus_skywayiot_handler` loop from line 779 (validation) through the
response push (lines 981-1050).  Returns the updated session and the
outputs in emission order; exactly one `Out.push` carries the response. -/
def handleRequest (s : Session) (body : ReqBody) (jsep : Option Jsep) (tx : String) :
    Session × List Out :=
  match body with
  | .absent => (s, [Out.push (some tx) (Ev.err 411 noMsgCause)])
  | .notObject => (s, [Out.push (some tx) (Ev.err 412 notObjectCause)])
  | .obj o =>
    match checkTypes o with
    | some cause => (s, [Out.push (some tx) (Ev.err 413 cause)])
    | none =>
      let sdpOpt := jsep.map (fun j => j.sdp)
      let p := enforce s o sdpOpt
      if noActionable o sdpOpt then
        (p.1, p.2 ++ [Out.push (some tx) (Ev.err 413 noAttrCause)])
      else
        match jsep with
        | none => (p.1, p.2 ++ [Out.push (some tx) (Ev.ok none)])
        | some j =>
          ({ p.1 with hangingup := 0 },
           p.2 ++ [Out.push (some tx) (Ev.ok (some (invertType j.sdpType, rewriteSdp j.sdp)))])

/-- One worker iteration after dequeue (lines 759-777 plus the request
handling): a message whose session is missing is dropped, a message whose
session is destroyed is dropped, otherwise the request is processed. -/
def handlerStep (sessOpt : Option Session) (body : ReqBody) (jsep : Option Jsep) (tx : String) :
    Option Session × List Out :=
  match sessOpt with
  | none => (none, [])
  | some s =>
    if s.destroyed ≠ 0 then (some s, [])
    else
      let p := handleRequest s body jsep tx
      (some p.1, p.2)

/-- `janus_skywayiot_slow_link` (lines 650-694) for a live handle on a
running plugin: the slowlink counter is always incremented; an uplink
audio/video signal whose direction is already inactive is only logged;
otherwise a video signal halves the bitrate cap (initializing an unset cap
to `512*1024`) with a floor of `64*1024`, relays a REMB at the new cap and
pushes a `slow_link` event (with a `NULL` transaction). -/
def janus_skywayiot_slow_link (s : Session) (uplink video : Bool) : Session × List Out :=
  if s.destroyed ≠ 0 then (s, [])
  else
    let s1 := { s with slowlinkCount := s.slowlinkCount + 1 }
    if uplink && !video && !s.audioActive then (s1, [])
    else if uplink && video && !s.videoActive then (s1, [])
    else if video then
      let b0 := if 0 < s1.bitrate then s1.bitrate else 512 * 1024
      let b1 := b0 / 2
      let b2 := if b1 < 64 * 1024 then 64 * 1024 else b1
      ({ s1 with bitrate := b2 },
       [Out.rtcp true (RtcpPkt.remb b2), Out.push none (Ev.slowLink b2)])
    else (s1, [])

/-- `janus_skywayiot_incoming_rtp` (lines 576-599) for a running plugin:
the looked-up session (`handle->plugin_handle`, `none` when the handle has
no session) must exist, not be destroyed, and the active flag of the
packet's medium must be set; then the packet is written unchanged to the
external media socket (the returned value); otherwise nothing is written. -/
def janus_skywayiot_incoming_rtp (sessOpt : Option Session) (video : Bool) (buf : List Nat) :
    Option (List Nat) :=
  match sessOpt with
  | none => none
  | some s =>
    if s.destroyed ≠ 0 then none
    else if (!video && s.audioActive) || (video && s.videoActive) then some buf
    else none

/-- The little-endian value of a byte sequence, least significant byte
first: the `memcpy` of the first 8 received bytes into a `guint64` at line
1161 on a little-endian host. -/
def leBytes : List Nat → Nat
| [] => 0
| b :: bs => b + 256 * leBytes bs

/-- The broadcast sentinel `0xffffffffffffffff` (line 1181). -/
def broadcastId : Nat := 2 ^ 64 - 1

/-- `relay_extern_data` (lines 1176-1184) as the delivery predicate: a
session with handle id `h` receives the payload iff the frame's connection
id is the broadcast sentinel or equals `h`. -/
def relay_extern_data (frameId h : Nat) : Bool :=
  frameId == broadcastId || h == frameId

/-- One iteration of `thread_receive_external_data` (lines 1157-1170): a
received datagram is forwarded only when strictly longer than the 8-byte
connection id; the payload (everything after the first 8 bytes) is handed
to `relay_extern_data` for every live session.  The result lists the
(session handle, payload) deliveries. -/
def thread_receive_external_data (sessions : List Nat) (frame : List Nat) :
    List (Nat × List Nat) :=
  if 8 < frame.length then
    let cid := leBytes (frame.take 8)
    (sessions.filter (fun h => relay_extern_data cid h)).map (fun h => (h, frame.drop 8))
  else []

/-- The registry state: `sess h` is the session record reachable through
handle `h`'s `plugin_handle` pointer (or `none`), `registry` the keys of the
`sessions` hash table, `old` the `old_sessions` deferred-free list (entries
identified by their handle). -/
structure PluginState where
  sess : Nat → Option Session
  registry : List Nat
  old : List Nat

/-- The session record built by `janus_skywayiot_create_session`
(lines 434-444): `g_malloc0` zeroes every field, then the flags are set to
their defaults. -/
def freshSession : Session := {}

/-- `janus_skywayiot_create_session` (lines 429-451) for a running plugin: a
fresh session is attached to the handle and inserted in the registry. -/
def janus_skywayiot_create_session (st : PluginState) (h : Nat) : PluginState :=
  { sess := fun x => if x = h then some freshSession else st.sess x
    registry := h :: st.registry
    old := st.old }

/-- `janus_skywayiot_destroy_session` (lines 453-474) for a running plugin:
a handle with no session is an error (no state change); an already
destroyed session is left untouched; otherwise, under the single sessions
lock, `destroyed` is stamped with the current monotonic time, the session
is removed from the registry and appended to the deferred-free list. -/
def janus_skywayiot_destroy_session (st : PluginState) (h : Nat) (now : Nat) : PluginState :=
  match st.sess h with
  | none => st
  | some s =>
    if s.destroyed ≠ 0 then st
    else
      { sess := fun x => if x = h then some { s with destroyed := now } else st.sess x
        registry := st.registry.erase h
        old := st.old ++ [h] }

/-- Whether the watchdog pass at time `now` reclaims the session behind
handle `h`: line 262, `now - session->destroyed >= 5*G_USEC_PER_SEC`. -/
def reclaimableB (st : PluginState) (now h : Nat) : Bool :=
  match st.sess h with
  | some s => decide (5000000 ≤ now - s.destroyed)
  | none => false

/-- One `janus_skywayiot_watchdog` scan pass (lines 250-276): every entry of
the deferred-free list whose grace period has elapsed is unlinked and its
session freed; the registry is untouched. -/
def janus_skywayiot_watchdog (st : PluginState) (now : Nat) : PluginState :=
  { sess := fun x => if st.old.contains x && reclaimableB st now x then none else st.sess x
    registry := st.registry
    old := st.old.filter (fun h => !(reclaimableB st now h)) }

/-- The registry/deferred-list invariant: member lists are duplicate-free,
registry membership and deferred-free membership are mutually exclusive,
every registered handle reaches a live (undestroyed) session, every
deferred handle reaches a destroyed session, and every live session is
registered. -/
def Inv (st : PluginState) : Prop :=
  st.registry.Nodup ∧ st.old.Nodup ∧
  (∀ h ∈ st.registry, h ∉ st.old) ∧
  (∀ h ∈ st.registry, ∃ s, st.sess h = some s ∧ s.destroyed = 0) ∧
  (∀ h ∈ st.old, ∃ s, st.sess h = some s ∧ s.destroyed ≠ 0) ∧
  (∀ h s, st.sess h = some s → s.destroyed = 0 → h ∈ st.registry)

/-- Whether an output is an event push (a response when its transaction is
the request's). -/
def isPush : Out → Bool
| .push _ _ => true
| .rtcp _ _ => false

/-- A session with every field at its creation default. -/
def s0 : Session := freshSession

/-- The request body `\x7b"record": true\x7d`. -/
def recTrueObj : ReqObj := { record := some (JVal.jbool true) }

/-- The request body `\x7b\x7d`. -/
def emptyObj : ReqObj := {}

/-- The request body `\x7b"audio": true\x7d`. -/
def audioTrueObj : ReqObj := { audio := some (JVal.jbool true) }

/-- An SDP carrying both a receive-only and a send-only direction. -/
def bothDirSdp : Sdp := "v=0\r\na=recvonly\r\na=sendonly\r\n".toList

/-- The empty registry state (after plugin initialization). -/
def emptyState : PluginState :=
  { sess := fun _ => none, registry := [], old := [] }

/-! ### Shared helper lemmas -/

theorem filter_relay_broadcast (l : List Nat) :
    l.filter (fun h => relay_extern_data broadcastId h) = l := by
  have : ∀ h : Nat, relay_extern_data broadcastId h = true := by
    intro h; simp [relay_extern_data]
  simp [this]

theorem filter_relay_single (l : List Nat) (cid : Nat) (hb : cid ≠ broadcastId)
    (hc : l.count cid = 1) : l.filter (fun h => relay_extern_data cid h) = [cid] := by
  have hpred : ∀ h ∈ l, relay_extern_data cid h = (h == cid) := by
    intro h _; simp [relay_extern_data, hb]
  rw [List.filter_congr hpred, List.filter_beq l cid, hc]
  rfl

theorem filter_relay_none (l : List Nat) (cid : Nat) (hb : cid ≠ broadcastId)
    (hm : cid ∉ l) : l.filter (fun h => relay_extern_data cid h) = [] := by
  rw [List.filter_eq_nil_iff]
  intro b hbmem
  simp only [relay_extern_data, Bool.or_eq_true, beq_iff_eq]
  push_neg
  exact ⟨hb, fun hbc => hm (hbc ▸ hbmem)⟩

/-! ### C3: RTP relay gating -/

/-- C3: an incoming RTP packet is written verbatim to the external media
destination iff the looked-up session exists, is not destroyed, and the
medium's active flag is set; in every other case nothing is written. -/
theorem C3_rtp_gating : ∀ (so : Option Session) (video : Bool) (buf : List Nat),
    (janus_skywayiot_incoming_rtp so video buf = some buf ↔
      ∃ s, so = some s ∧ s.destroyed = 0 ∧
        (if video then s.videoActive else s.audioActive) = true)
    ∧ (janus_skywayiot_incoming_rtp so video buf = none ∨
       janus_skywayiot_incoming_rtp so video buf = some buf) := by
  intro so video buf
  constructor
  · cases so with
    | none => simp [janus_skywayiot_incoming_rtp]
    | some s =>
      cases video <;>
        by_cases hd : s.destroyed = 0 <;>
          simp [janus_skywayiot_incoming_rtp, hd]
  · cases so with
    | none => left; rfl
    | some s =>
      simp only [janus_skywayiot_incoming_rtp]
      split
      · left; rfl
      · split
        · right; rfl
        · left; rfl

/-! ### C10: the 8-byte boundary frame -/

/-- C10: an inbound bridge datagram of exactly 8 bytes (full connection id,
empty payload) is delivered to no session, since forwarding requires the
received length to be strictly greater than the id width. -/
theorem C10_boundary_frame : ∀ (sessions frame : List Nat), frame.length = 8 →
    thread_receive_external_data sessions frame = [] := by
  intro sessions frame h
  simp [thread_receive_external_data, h]

/-- Witness for C10 at a concrete broadcast-addressed 8-byte frame. -/
theorem C10_boundary_frame_witness :
    (List.replicate 8 255 : List Nat).length = 8 ∧
      thread_receive_external_data [1, 2, 3] (List.replicate 8 255) = [] :=
  ⟨by decide, C10_boundary_frame [1, 2, 3] (List.replicate 8 255) (by decide)⟩

/-! ### C5: bridge frame delivery by connection-id -/

/-- C5: delivery of an inbound bridge frame follows the 8-byte connection-id
in its first bytes: the all-ones broadcast id delivers the payload to every
live session, an id matching exactly one live session's handle delivers to
that session only, a non-matching id delivers to none, and a frame shorter
than 8 bytes is dropped. -/
theorem C5_bridge_delivery : ∀ (sessions frame : List Nat),
    (8 < frame.length → leBytes (frame.take 8) = broadcastId →
      thread_receive_external_data sessions frame =
        sessions.map (fun h => (h, frame.drop 8)))
    ∧ (8 < frame.length → leBytes (frame.take 8) ≠ broadcastId →
        sessions.count (leBytes (frame.take 8)) = 1 →
        thread_receive_external_data sessions frame =
          [(leBytes (frame.take 8), frame.drop 8)])
    ∧ (8 < frame.length → leBytes (frame.take 8) ≠ broadcastId →
        leBytes (frame.take 8) ∉ sessions →
        thread_receive_external_data sessions frame = [])
    ∧ (frame.length < 8 → thread_receive_external_data sessions frame = []) := by
  intro sessions frame
  refine ⟨?_, ?_, ?_, ?_⟩
  · intro hlen hid
    simp only [thread_receive_external_data, if_pos hlen, hid, filter_relay_broadcast]
  · intro hlen hid hcount
    simp only [thread_receive_external_data, if_pos hlen,
      filter_relay_single sessions _ hid hcount, List.map_cons, List.map_nil]
  · intro hlen hid hmem
    simp only [thread_receive_external_data, if_pos hlen,
      filter_relay_none sessions _ hid hmem, List.map_nil]
  · intro hlen
    have : ¬ 8 < frame.length := by omega
    simp [thread_receive_external_data, this]

/-- Witness for C5: a broadcast frame reaches all of three live sessions,
and a non-matching id reaches none. -/
theorem C5_bridge_delivery_witness :
    (8 < (List.replicate 8 255 ++ [7] : List Nat).length
      ∧ leBytes ((List.replicate 8 255 ++ [7] : List Nat).take 8) = broadcastId
      ∧ thread_receive_external_data [1, 2, 3] (List.replicate 8 255 ++ [7]) =
          [(1, [7]), (2, [7]), (3, [7])])
    ∧ (leBytes (([9, 0, 0, 0, 0, 0, 0, 0, 7] : List Nat).take 8) ∉ ([1, 2, 3] : List Nat)
      ∧ thread_receive_external_data [1, 2, 3] [9, 0, 0, 0, 0, 0, 0, 0, 7] = []) := by
  constructor
  · refine ⟨by decide, by decide, ?_⟩
    exact (C5_bridge_delivery [1, 2, 3] (List.replicate 8 255 ++ [7])).1
      (by decide) (by decide)
  · refine ⟨by decide, ?_⟩
    exact (C5_bridge_delivery [1, 2, 3] [9, 0, 0, 0, 0, 0, 0, 0, 7]).2.2.1
      (by decide) (by decide) (by decide)

/-! ### C2: congestion adaptation -/

/-- C2: a video congestion signal on a live session that is not explained by
the video direction being inactive halves the bitrate cap (first
initializing an unset cap to 512 KiB/s, so the first signal from an unset
cap yields 256 KiB/s) with a floor of 64 KiB/s, relays a REMB at the new
cap and pushes a slow_link notification carrying the new bitrate. -/
theorem C2_slow_link_adapt : ∀ (s : Session) (uplink : Bool),
    s.destroyed = 0 → ¬(uplink = true ∧ s.videoActive = false) →
    (let b0 := if 0 < s.bitrate then s.bitrate else 512 * 1024
     let b2 := if b0 / 2 < 64 * 1024 then 64 * 1024 else b0 / 2
     janus_skywayiot_slow_link s uplink true =
       ({ s with slowlinkCount := s.slowlinkCount + 1, bitrate := b2 },
        [Out.rtcp true (RtcpPkt.remb b2), Out.push none (Ev.slowLink b2)])
     ∧ (s.bitrate = 0 → b2 = 256 * 1024)
     ∧ 64 * 1024 ≤ b2) := by
  intro s uplink hd hexp
  have hva : uplink = false ∨ s.videoActive = true := by
    cases uplink with
    | false => exact Or.inl rfl
    | true =>
      cases hv : s.videoActive with
      | false => exact absurd ⟨rfl, hv⟩ hexp
      | true => exact Or.inr rfl
  refine ⟨?_, ?_, ?_⟩
  · rcases hva with h | h <;> simp [janus_skywayiot_slow_link, hd, h]
  · intro hb0
    simp only [hb0]
    norm_num
  · dsimp only
    by_cases h1 : 0 < s.bitrate
    · simp only [if_pos h1]
      split <;> omega
    · simp only [if_neg h1]
      norm_num

/-- Witness for C2: from an unset cap, the first video congestion signal on
a fresh live session sets the cap to 256 KiB/s and emits the REMB and the
slow_link event. -/
theorem C2_slow_link_adapt_witness :
    s0.destroyed = 0 ∧ ¬((true : Bool) = true ∧ s0.videoActive = false) ∧
      janus_skywayiot_slow_link s0 true true =
        ({ s0 with slowlinkCount := 1, bitrate := 262144 },
         [Out.rtcp true (RtcpPkt.remb 262144), Out.push none (Ev.slowLink 262144)]) := by
  refine ⟨rfl, by decide, ?_⟩
  have h := C2_slow_link_adapt s0 true rfl (by decide)
  exact h.1

/-! ### Helper lemmas about the enforcement section -/

theorem applyAudio_videoActive (s : Session) (o : ReqObj) :
    (applyAudio s o).videoActive = s.videoActive := by
  cases ho : o.audio <;> simp [applyAudio, ho]

theorem applyAudio_bitrate (s : Session) (o : ReqObj) :
    (applyAudio s o).bitrate = s.bitrate := by
  cases ho : o.audio <;> simp [applyAudio, ho]

theorem applyVideo_fst_bitrate (s : Session) (o : ReqObj) :
    (applyVideo s o).1.bitrate = s.bitrate := by
  cases ho : o.video <;> simp [applyVideo, ho]

theorem applyVideo_fst_videoActive_set (s : Session) (o : ReqObj) (v : JVal)
    (h : o.video = some v) : (applyVideo s o).1.videoActive = json_is_true v := by
  simp [applyVideo, h]

theorem applyVideo_snd_cases (s : Session) (o : ReqObj) :
    (applyVideo s o).2 = [] ∨ (applyVideo s o).2 = [Out.rtcp true RtcpPkt.pli] := by
  cases ho : o.video with
  | none => left; simp [applyVideo, ho]
  | some v =>
    by_cases hc : (!s.videoActive && json_is_true v) = true
    · right; simp [applyVideo, ho, hc]
    · left; simp [applyVideo, ho, hc]

theorem applyBitrate_fst_videoActive (s : Session) (o : ReqObj) :
    (applyBitrate s o).1.videoActive = s.videoActive := by
  cases ho : o.bitrate <;> simp [applyBitrate, ho]

theorem applyBitrate_fst_set (s : Session) (o : ReqObj) (v : JVal)
    (h : o.bitrate = some v) :
    (applyBitrate s o).1.bitrate = (json_integer_value v).toNat := by
  simp [applyBitrate, h]

theorem applyBitrate_snd_zero (s : Session) (o : ReqObj)
    (h : o.bitrate = some (JVal.jint 0)) : (applyBitrate s o).2 = [] := by
  simp [applyBitrate, h, json_integer_value]

theorem applyBitrate_snd_pos (s : Session) (o : ReqObj) (n : Int)
    (h : o.bitrate = some (JVal.jint n)) (hn : 0 < n) :
    (applyBitrate s o).2 = [Out.rtcp true (RtcpPkt.remb n.toNat)] := by
  have : 0 < n.toNat := by omega
  simp [applyBitrate, h, json_integer_value, this]

theorem applyRecord_fst_core (s : Session) (o : ReqObj) (j : Option Sdp) :
    (applyRecord s o j).1.bitrate = s.bitrate
    ∧ (applyRecord s o j).1.videoActive = s.videoActive
    ∧ (applyRecord s o j).1.audioActive = s.audioActive := by
  cases hr : o.record
  · simp [applyRecord, hr]
  · cases hj : j <;> simp only [applyRecord, hr, hj] <;> split <;> simp

theorem applyRecord_snd_cases (s : Session) (o : ReqObj) (j : Option Sdp) :
    (applyRecord s o j).2 = [] ∨ (applyRecord s o j).2 = [Out.rtcp true RtcpPkt.pli] := by
  cases hr : o.record with
  | none => left; simp [applyRecord, hr]
  | some v =>
    cases hj : j with
    | none =>
      by_cases hv : json_is_true v = true
      · by_cases h2 : s.hasVideo = true
        · right; simp [applyRecord, hr, hj, hv, h2]
        · left; simp [applyRecord, hr, hj, hv, h2]
      · left; simp [applyRecord, hr, hj, hv]
    | some sdp =>
      by_cases hv : json_is_true v = true
      · by_cases h2 : sdpHasVideo sdp = true
        · right; simp [applyRecord, hr, hj, hv, h2]
        · left; simp [applyRecord, hr, hj, hv, h2]
      · left; simp [applyRecord, hr, hj, hv]

theorem applySdp_core (s : Session) (j : Option Sdp) :
    (applySdp s j).bitrate = s.bitrate
    ∧ (applySdp s j).videoActive = s.videoActive
    ∧ (applySdp s j).audioActive = s.audioActive := by
  cases hj : j <;> simp [applySdp, hj]

theorem applyBitrate_snd_cases (s : Session) (o : ReqObj) :
    (applyBitrate s o).2 = [] ∨
      ∃ b, (applyBitrate s o).2 = [Out.rtcp true (RtcpPkt.remb b)] := by
  cases ho : o.bitrate with
  | none => left; simp [applyBitrate, ho]
  | some v =>
    by_cases hb : 0 < (json_integer_value v).toNat
    · right
      refine ⟨(json_integer_value v).toNat, ?_⟩
      simp [applyBitrate, ho, hb]
    · left; simp [applyBitrate, ho, hb]

theorem enforce_push_free (s : Session) (o : ReqObj) (j : Option Sdp) :
    (enforce s o j).2.filter isPush = [] := by
  simp only [enforce, List.filter_append]
  rcases applyVideo_snd_cases (applyAudio s o) o with h1 | h1 <;>
    rcases applyBitrate_snd_cases (applyVideo (applyAudio s o) o).1 o with h2 | ⟨b, h2⟩ <;>
    rcases applyRecord_snd_cases (applyBitrate (applyVideo (applyAudio s o) o).1 o).1 o j
      with h3 | h3 <;>
    simp [h1, h2, h3, isPush]

theorem enforce_fst_bitrate (s : Session) (o : ReqObj) (j : Option Sdp) (v : JVal)
    (h : o.bitrate = some v) :
    (enforce s o j).1.bitrate = (json_integer_value v).toNat := by
  simp only [enforce]
  rw [(applySdp_core _ _).1, (applyRecord_fst_core _ _ _).1, applyBitrate_fst_set _ _ _ h]

theorem enforce_fst_videoActive (s : Session) (o : ReqObj) (j : Option Sdp) (v : JVal)
    (h : o.video = some v) :
    (enforce s o j).1.videoActive = json_is_true v := by
  simp only [enforce]
  rw [(applySdp_core _ _).2.1, (applyRecord_fst_core _ _ _).2.1,
    applyBitrate_fst_videoActive, applyVideo_fst_videoActive_set _ _ _ h]

theorem enforce_no_remb_zero (s : Session) (o : ReqObj) (j : Option Sdp)
    (h : o.bitrate = some (JVal.jint 0)) :
    ∀ b, Out.rtcp true (RtcpPkt.remb b) ∉ (enforce s o j).2 := by
  intro b
  simp only [enforce, List.mem_append]
  push_neg
  refine ⟨⟨?_, ?_⟩, ?_⟩
  · rcases applyVideo_snd_cases (applyAudio s o) o with h1 | h1 <;> simp [h1]
  · rw [applyBitrate_snd_zero _ _ h]; simp
  · rcases applyRecord_snd_cases (applyBitrate (applyVideo (applyAudio s o) o).1 o).1 o j
      with h3 | h3 <;> simp [h3]

theorem enforce_remb_mem (s : Session) (o : ReqObj) (j : Option Sdp) (n : Int)
    (h : o.bitrate = some (JVal.jint n)) (hn : 0 < n) :
    Out.rtcp true (RtcpPkt.remb n.toNat) ∈ (enforce s o j).2 := by
  simp only [enforce, List.mem_append]
  left; right
  rw [applyBitrate_snd_pos _ _ _ h hn]
  simp

theorem enforce_pli_mem (s : Session) (o : ReqObj) (j : Option Sdp)
    (h : o.video = some (JVal.jbool true)) (hv : s.videoActive = false) :
    Out.rtcp true RtcpPkt.pli ∈ (enforce s o j).2 := by
  simp only [enforce, List.mem_append]
  left; left
  have hva : (applyAudio s o).videoActive = false := by
    rw [applyAudio_videoActive]; exact hv
  simp [applyVideo, h, hva, json_is_true]

theorem noActionable_false_of_bitrate (o : ReqObj) (j : Option Sdp) (v : JVal)
    (h : o.bitrate = some v) : noActionable o j = false := by
  simp [noActionable, h]

theorem noActionable_false_of_video (o : ReqObj) (j : Option Sdp) (v : JVal)
    (h : o.video = some v) : noActionable o j = false := by
  simp [noActionable, h]

theorem handleRequest_valid_none (s : Session) (o : ReqObj) (tx : String)
    (hct : checkTypes o = none) (hna : noActionable o none = false) :
    handleRequest s (.obj o) none tx =
      ((enforce s o none).1, (enforce s o none).2 ++ [Out.push (some tx) (Ev.ok none)]) := by
  simp [handleRequest, hct, hna]

theorem handleRequest_valid_some (s : Session) (o : ReqObj) (j : Jsep) (tx : String)
    (hct : checkTypes o = none) :
    handleRequest s (.obj o) (some j) tx =
      ({ (enforce s o (some j.sdp)).1 with hangingup := 0 },
       (enforce s o (some j.sdp)).2 ++
         [Out.push (some tx) (Ev.ok (some (invertType j.sdpType, rewriteSdp j.sdp)))]) := by
  simp [handleRequest, hct, noActionable]

/-! ### C9: bitrate zero clears the cap without a REMB -/

/-- C9: a valid control request with `bitrate: 0` on a live session sets the
session's cap to 0 (unlimited), emits no REMB packet, and still receives
the normal ok response. -/
theorem C9_bitrate_zero : ∀ (s : Session) (o : ReqObj) (jsep : Option Jsep) (tx : String),
    checkTypes o = none → o.bitrate = some (JVal.jint 0) →
    (handleRequest s (.obj o) jsep tx).1.bitrate = 0
    ∧ (∀ b, Out.rtcp true (RtcpPkt.remb b) ∉ (handleRequest s (.obj o) jsep tx).2)
    ∧ (∃ s' pre j, handleRequest s (.obj o) jsep tx =
        (s', pre ++ [Out.push (some tx) (Ev.ok j)])) := by
  intro s o jsep tx hct hb
  have hna : noActionable o (jsep.map (fun j => j.sdp)) = false :=
    noActionable_false_of_bitrate o _ _ hb
  cases jsep with
  | none =>
    rw [handleRequest_valid_none s o tx hct hna]
    refine ⟨?_, ?_, ?_⟩
    · simpa [json_integer_value] using enforce_fst_bitrate s o none _ hb
    · intro b
      simp only [List.mem_append, List.mem_singleton]
      push_neg
      exact ⟨enforce_no_remb_zero s o none hb b, by simp⟩
    · exact ⟨_, _, none, rfl⟩
  | some j =>
    rw [handleRequest_valid_some s o j tx hct]
    refine ⟨?_, ?_, ?_⟩
    · simpa [json_integer_value] using enforce_fst_bitrate s o (some j.sdp) _ hb
    · intro b
      simp only [List.mem_append, List.mem_singleton]
      push_neg
      exact ⟨enforce_no_remb_zero s o (some j.sdp) hb b, by simp⟩
    · exact ⟨_, _, _, rfl⟩

/-- Witness for C9: `bitrate: 0` on a session previously capped at 100 000
clears the cap and answers ok with no REMB. -/
theorem C9_bitrate_zero_witness :
    checkTypes { bitrate := some (JVal.jint 0) } = none ∧
      (handleRequest { s0 with bitrate := 100000 }
        (.obj { bitrate := some (JVal.jint 0) }) none "t").1.bitrate = 0 := by
  refine ⟨rfl, ?_⟩
  exact (C9_bitrate_zero { s0 with bitrate := 100000 } { bitrate := some (JVal.jint 0) }
    none "t" rfl rfl).1

/-! ### C7: PLI on video re-enable, REMB on bitrate set -/

/-- C7: in a valid control request on a live session, a `video: true` field
while video is inactive relays a PLI to the peer and leaves video active,
and a `bitrate` field sets the cap to its value and, when non-zero, relays
a REMB at exactly that cap within the same request-processing cycle. -/
theorem C7_video_pli_bitrate_remb :
    ∀ (s : Session) (o : ReqObj) (jsep : Option Jsep) (tx : String),
    checkTypes o = none →
    ((o.video = some (JVal.jbool true) → s.videoActive = false →
        Out.rtcp true RtcpPkt.pli ∈ (handleRequest s (.obj o) jsep tx).2
        ∧ (handleRequest s (.obj o) jsep tx).1.videoActive = true)
    ∧ (∀ n : Int, o.bitrate = some (JVal.jint n) → 0 ≤ n →
        (handleRequest s (.obj o) jsep tx).1.bitrate = n.toNat
        ∧ (0 < n →
            Out.rtcp true (RtcpPkt.remb n.toNat) ∈ (handleRequest s (.obj o) jsep tx).2))) := by
  intro s o jsep tx hct
  constructor
  · intro hv hva
    have hna : noActionable o (jsep.map (fun j => j.sdp)) = false :=
      noActionable_false_of_video o _ _ hv
    cases jsep with
    | none =>
      rw [handleRequest_valid_none s o tx hct hna]
      constructor
      · simp only [List.mem_append]
        exact Or.inl (enforce_pli_mem s o none hv hva)
      · simpa [json_is_true] using enforce_fst_videoActive s o none _ hv
    | some j =>
      rw [handleRequest_valid_some s o j tx hct]
      constructor
      · simp only [List.mem_append]
        exact Or.inl (enforce_pli_mem s o (some j.sdp) hv hva)
      · simpa [json_is_true] using enforce_fst_videoActive s o (some j.sdp) _ hv
  · intro n hb _
    have hna : noActionable o (jsep.map (fun j => j.sdp)) = false :=
      noActionable_false_of_bitrate o _ _ hb
    cases jsep with
    | none =>
      rw [handleRequest_valid_none s o tx hct hna]
      constructor
      · simpa [json_integer_value] using enforce_fst_bitrate s o none _ hb
      · intro hn
        simp only [List.mem_append]
        exact Or.inl (enforce_remb_mem s o none n hb hn)
    | some j =>
      rw [handleRequest_valid_some s o j tx hct]
      constructor
      · simpa [json_integer_value] using enforce_fst_bitrate s o (some j.sdp) _ hb
      · intro hn
        simp only [List.mem_append]
        exact Or.inl (enforce_remb_mem s o (some j.sdp) n hb hn)

/-- Witness for C7: `\x7b"video": true, "bitrate": 128000\x7d` on a live
session with video disabled relays a PLI, re-enables video, sets the cap
and relays a REMB at 128000. -/
theorem C7_video_pli_bitrate_remb_witness :
    checkTypes { video := some (JVal.jbool true), bitrate := some (JVal.jint 128000) } = none
    ∧ ({ s0 with videoActive := false } : Session).videoActive = false
    ∧ Out.rtcp true RtcpPkt.pli ∈
        (handleRequest { s0 with videoActive := false }
          (.obj { video := some (JVal.jbool true), bitrate := some (JVal.jint 128000) })
          none "t").2
    ∧ Out.rtcp true (RtcpPkt.remb 128000) ∈
        (handleRequest { s0 with videoActive := false }
          (.obj { video := some (JVal.jbool true), bitrate := some (JVal.jint 128000) })
          none "t").2 := by
  have h := C7_video_pli_bitrate_remb { s0 with videoActive := false }
    { video := some (JVal.jbool true), bitrate := some (JVal.jint 128000) } none "t" rfl
  refine ⟨rfl, rfl, (h.1 rfl rfl).1, ?_⟩
  have h2 := (h.2 128000 rfl (by norm_num)).2 (by norm_num)
  simpa using h2

/-! ### C1: validation order and the actionable-attribute set -/

theorem any_not_of_all {α : Type} {f : α → Bool} {x : Option α} (h : x.all f = true) :
    x.any (fun v => !(f v)) = false := by
  cases x <;> simp_all

/-- C1 counterexample: the request `\x7b"record": true\x7d` carries none of
`audio`, `video`, `bitrate`, or a negotiation payload, yet the code answers
ok instead of the InvalidElement rejection the claim requires (the source
also treats `record` as actionable, line 974). -/
theorem C1_counterexample :
    handleRequest s0 (.obj recTrueObj) none "t" = (s0, [Out.push (some "t") (Ev.ok none)])
    ∧ handleRequest s0 (.obj recTrueObj) none "t"
        ≠ (s0, [Out.push (some "t") (Ev.err 413 noAttrCause)]) :=
  ⟨by decide, by decide⟩

/-- C1 amended: with a live session, validation order is: missing body 411;
non-object body 412; then 413 for a non-boolean `audio`, then a non-boolean
`video`, then a `bitrate` that is not a non-negative integer, then a
non-boolean `record`, then a non-string `filename`; and when none of
`audio`, `video`, `bitrate`, `record`, or a negotiation payload is present
the request is rejected 413 with the no-supported-attribute cause.  In
particular `\x7b\x7d` yields InvalidElement and `\x7b"audio": true\x7d`
yields ok and sets audioActive. -/
theorem C1_amended_validation :
    ∀ (s : Session) (o : ReqObj) (jsep : Option Jsep) (tx : String),
    (handleRequest s .absent jsep tx = (s, [Out.push (some tx) (Ev.err 411 noMsgCause)]))
    ∧ (handleRequest s .notObject jsep tx =
        (s, [Out.push (some tx) (Ev.err 412 notObjectCause)]))
    ∧ (∀ v, o.audio = some v → json_is_boolean v = false →
        handleRequest s (.obj o) jsep tx = (s, [Out.push (some tx) (Ev.err 413 audioCause)]))
    ∧ (∀ v, o.audio.all json_is_boolean = true → o.video = some v →
        json_is_boolean v = false →
        handleRequest s (.obj o) jsep tx = (s, [Out.push (some tx) (Ev.err 413 videoCause)]))
    ∧ (∀ v, o.audio.all json_is_boolean = true → o.video.all json_is_boolean = true →
        o.bitrate = some v →
        (json_is_integer v = false ∨ json_integer_value v < 0) →
        handleRequest s (.obj o) jsep tx = (s, [Out.push (some tx) (Ev.err 413 bitrateCause)]))
    ∧ (∀ v, o.audio.all json_is_boolean = true → o.video.all json_is_boolean = true →
        o.bitrate.all (fun w => json_is_integer w && decide (0 ≤ json_integer_value w)) = true →
        o.record = some v → json_is_boolean v = false →
        handleRequest s (.obj o) jsep tx = (s, [Out.push (some tx) (Ev.err 413 recordCause)]))
    ∧ (∀ v, o.audio.all json_is_boolean = true → o.video.all json_is_boolean = true →
        o.bitrate.all (fun w => json_is_integer w && decide (0 ≤ json_integer_value w)) = true →
        o.record.all json_is_boolean = true →
        o.filename = some v → json_is_string v = false →
        handleRequest s (.obj o) jsep tx = (s, [Out.push (some tx) (Ev.err 413 filenameCause)]))
    ∧ (o.audio = none → o.video = none → o.bitrate = none → o.record = none → jsep = none →
        checkTypes o = none →
        handleRequest s (.obj o) jsep tx = (s, [Out.push (some tx) (Ev.err 413 noAttrCause)]))
    ∧ handleRequest s (.obj emptyObj) none tx =
        (s, [Out.push (some tx) (Ev.err 413 noAttrCause)])
    ∧ handleRequest s (.obj audioTrueObj) none tx =
        ({ s with audioActive := true }, [Out.push (some tx) (Ev.ok none)]) := by
  intro s o jsep tx
  refine ⟨rfl, rfl, ?_, ?_, ?_, ?_, ?_, ?_, rfl, rfl⟩
  · intro v hv hb
    have hct : checkTypes o = some audioCause := by
      simp [checkTypes, hv, hb]
    simp [handleRequest, hct]
  · intro v ha hv hb
    have h1 := any_not_of_all ha
    have hct : checkTypes o = some videoCause := by
      simp [checkTypes, h1, hv, hb]
    simp [handleRequest, hct]
  · intro v ha hvi hv hbad
    have h1 := any_not_of_all ha
    have h2 := any_not_of_all hvi
    have hb' : (!(json_is_integer v) || decide (json_integer_value v < 0)) = true := by
      rcases hbad with h | h
      · simp [h]
      · simp [h]
    have hct : checkTypes o = some bitrateCause := by
      simp [checkTypes, h1, h2, hv, hb']
    simp [handleRequest, hct]
  · intro v ha hvi hbr hv hb
    have h1 := any_not_of_all ha
    have h2 := any_not_of_all hvi
    have h3 : o.bitrate.any
        (fun w => !(json_is_integer w) || decide (json_integer_value w < 0)) = false := by
      cases hw : o.bitrate with
      | none => rfl
      | some w =>
        rw [hw] at hbr
        simp only [Option.all_some, Bool.and_eq_true, decide_eq_true_eq] at hbr
        simp [hbr.1]
        omega
    have hct : checkTypes o = some recordCause := by
      simp [checkTypes, h1, h2, h3, hv, hb]
    simp [handleRequest, hct]
  · intro v ha hvi hbr hr hv hb
    have h1 := any_not_of_all ha
    have h2 := any_not_of_all hvi
    have h4 := any_not_of_all hr
    have h3 : o.bitrate.any
        (fun w => !(json_is_integer w) || decide (json_integer_value w < 0)) = false := by
      cases hw : o.bitrate with
      | none => rfl
      | some w =>
        rw [hw] at hbr
        simp only [Option.all_some, Bool.and_eq_true, decide_eq_true_eq] at hbr
        simp [hbr.1]
        omega
    have hct : checkTypes o = some filenameCause := by
      simp [checkTypes, h1, h2, h3, h4, hv, hb]
    simp [handleRequest, hct]
  · intro ha hv hb hr hj hct
    subst hj
    have hna : noActionable o none = true := by
      simp [noActionable, ha, hv, hb, hr]
    have henf : enforce s o none = (s, []) := by
      simp [enforce, applyAudio, applyVideo, applyBitrate, applyRecord, applySdp,
        ha, hv, hb, hr]
    simp [handleRequest, hct, hna, henf]

/-- Witness for C1: a non-boolean `audio` is rejected first with the audio
cause. -/
theorem C1_amended_validation_witness :
    json_is_boolean (JVal.jint 3) = false ∧
      handleRequest s0 (.obj { audio := some (JVal.jint 3), video := some (JVal.jstr "x") })
          none "t"
        = (s0, [Out.push (some "t") (Ev.err 413 audioCause)]) :=
  ⟨rfl, (C1_amended_validation s0 { audio := some (JVal.jint 3), video := some (JVal.jstr "x") }
    none "t").2.2.1 (JVal.jint 3) rfl rfl⟩

/-! ### C8: exactly one response per dequeued message with a live session -/

/-- C8 counterexample: a dequeued control message whose session is already
destroyed is dropped without any response event (lines 774-777), so not
every dequeued message gets a response. -/
theorem C8_counterexample :
    handlerStep (some { s0 with destroyed := 3 }) (.obj audioTrueObj) none "t"
      = (some { s0 with destroyed := 3 }, []) := by
  decide

/-- C8 amended: for every message dequeued with an existing, non-destroyed
session, exactly one response event is pushed, carrying the request's
transaction, and it is either ok or an error; a dequeued message whose
session is missing or destroyed produces no output at all. -/
theorem C8_amended_single_response :
    ∀ (s : Session) (body : ReqBody) (jsep : Option Jsep) (tx : String),
    s.destroyed = 0 →
    ((∃ e, ((handleRequest s body jsep tx).2.filter isPush) = [Out.push (some tx) e])
    ∧ handlerStep (some s) body jsep tx =
        (some (handleRequest s body jsep tx).1, (handleRequest s body jsep tx).2)
    ∧ (∀ s' : Session, s'.destroyed ≠ 0 → handlerStep (some s') body jsep tx = (some s', []))
    ∧ handlerStep none body jsep tx = (none, [])) := by
  intro s body jsep tx hd
  refine ⟨?_, ?_, ?_, rfl⟩
  · cases body with
    | absent => exact ⟨Ev.err 411 noMsgCause, by simp [handleRequest, isPush]⟩
    | notObject => exact ⟨Ev.err 412 notObjectCause, by simp [handleRequest, isPush]⟩
    | obj o =>
      cases hct : checkTypes o with
      | some cause => exact ⟨Ev.err 413 cause, by simp [handleRequest, hct, isPush]⟩
      | none =>
        by_cases hna : noActionable o (jsep.map (fun j => j.sdp)) = true
        · refine ⟨Ev.err 413 noAttrCause, ?_⟩
          simp only [handleRequest, hct, hna, if_true]
          rw [List.filter_append, enforce_push_free]
          simp [isPush]
        · cases jsep with
          | none =>
            rw [handleRequest_valid_none s o tx hct (by simpa using hna)]
            refine ⟨Ev.ok none, ?_⟩
            rw [List.filter_append, enforce_push_free]
            simp [isPush]
          | some j =>
            rw [handleRequest_valid_some s o j tx hct]
            refine ⟨Ev.ok (some (invertType j.sdpType, rewriteSdp j.sdp)), ?_⟩
            rw [List.filter_append, enforce_push_free]
            simp [isPush]
  · simp [handlerStep, hd]
  · intro s' hs'
    simp [handlerStep, hs']

/-- Witness for C8 on a live session and the empty request body. -/
theorem C8_amended_single_response_witness :
    s0.destroyed = 0
    ∧ handlerStep (some s0) (.obj emptyObj) none "t" =
        (some (handleRequest s0 (.obj emptyObj) none "t").1,
         (handleRequest s0 (.obj emptyObj) none "t").2)
    ∧ (handleRequest s0 (.obj emptyObj) none "t").2 =
        [Out.push (some "t") (Ev.err 413 noAttrCause)] :=
  ⟨rfl, (C8_amended_single_response s0 (.obj emptyObj) none "t" rfl).2.1, by decide⟩

/-! ### C4: destroy is idempotent, registry and deferred list stay disjoint -/

/-- C4: on a state satisfying the registry invariant, the first destroy of a
live session stamps `destroyed` with the (non-zero) current time, removes
the handle from the registry and appends it to the deferred-free list; a
second destroy call is a no-op; and the invariant — in particular the
mutual exclusion of registry membership and deferred-free membership — is
preserved by destroy, by creation of a fresh session and by a watchdog
reclamation pass. -/
theorem C4_destroy_lifecycle :
    ∀ (st : PluginState) (h : Nat) (s : Session) (now now' : Nat),
    Inv st → st.sess h = some s → s.destroyed = 0 → 0 < now →
    (((janus_skywayiot_destroy_session st h now).sess h = some { s with destroyed := now }
    ∧ h ∉ (janus_skywayiot_destroy_session st h now).registry
    ∧ h ∈ (janus_skywayiot_destroy_session st h now).old
    ∧ janus_skywayiot_destroy_session (janus_skywayiot_destroy_session st h now) h now'
        = janus_skywayiot_destroy_session st h now
    ∧ Inv (janus_skywayiot_destroy_session st h now))
    ∧ (∀ h', h' ∉ st.registry → h' ∉ st.old → st.sess h' = none →
        Inv (janus_skywayiot_create_session st h'))
    ∧ Inv (janus_skywayiot_watchdog st now)) := by
  intro st h s now now' hinv hsess hd hnow
  obtain ⟨hnr, hno, hdisj, hreg, hold, hlive⟩ := hinv
  have hmem_reg : h ∈ st.registry := hlive h s hsess hd
  have hnot_old : h ∉ st.old := hdisj h hmem_reg
  have hne : now ≠ 0 := by omega
  have hdest_eq : janus_skywayiot_destroy_session st h now =
      { sess := fun x => if x = h then some { s with destroyed := now } else st.sess x
        registry := st.registry.erase h
        old := st.old ++ [h] } := by
    simp [janus_skywayiot_destroy_session, hsess, hd]
  refine ⟨⟨?_, ?_, ?_, ?_, ?_⟩, ?_, ?_⟩
  · rw [hdest_eq]
    simp
  · rw [hdest_eq]
    simp [hnr.mem_erase_iff]
  · rw [hdest_eq]
    simp
  · rw [hdest_eq]
    simp [janus_skywayiot_destroy_session, hne]
  · rw [hdest_eq]
    refine ⟨hnr.erase h, ?_, ?_, ?_, ?_, ?_⟩
    · rw [List.nodup_append]
      refine ⟨hno, List.nodup_singleton h, ?_⟩
      intro a ha hb
      simp only [List.mem_singleton] at hb
      exact hnot_old (hb ▸ ha)
    · intro x hx
      rw [hnr.mem_erase_iff] at hx
      simp only [List.mem_append, List.mem_singleton]
      push_neg
      exact ⟨hdisj x hx.2, hx.1⟩
    · intro x hx
      rw [hnr.mem_erase_iff] at hx
      simpa [hx.1] using hreg x hx.2
    · intro x hx
      rcases List.mem_append.mp hx with hxo | hxh
      · have hxne : x ≠ h := fun he => hnot_old (he ▸ hxo)
        obtain ⟨s', hs', hds'⟩ := hold x hxo
        exact ⟨s', by simp [hxne, hs'], hds'⟩
      · simp only [List.mem_singleton] at hxh
        subst hxh
        exact ⟨{ s with destroyed := now }, by simp, by simpa using hne⟩
    · intro x s' hx hd'
      by_cases hxh : x = h
      · subst hxh
        have hx' : ({ s with destroyed := now } : Session) = s' := by
          simpa using hx
        rw [← hx'] at hd'
        simp at hd'
        exact absurd hd' hne
      · have hx2 : st.sess x = some s' := by simpa [hxh] using hx
        show x ∈ st.registry.erase h
        exact (List.mem_erase_of_ne hxh).mpr (hlive x s' hx2 hd')
  · intro h' hr' ho' hs'
    refine ⟨?_, hno, ?_, ?_, ?_, ?_⟩
    · exact List.nodup_cons.mpr ⟨hr', hnr⟩
    · intro x hx
      rcases List.mem_cons.mp hx with hxe | hxr
      · exact hxe ▸ ho'
      · exact hdisj x hxr
    · intro x hx
      rcases List.mem_cons.mp hx with hxe | hxr
      · subst hxe
        exact ⟨freshSession, by simp [janus_skywayiot_create_session], rfl⟩
      · have hxne : x ≠ h' := fun he => hr' (he ▸ hxr)
        obtain ⟨s', hs'', hds'⟩ := hreg x hxr
        exact ⟨s', by simp [janus_skywayiot_create_session, hxne, hs''], hds'⟩
    · intro x hx
      have hxne : x ≠ h' := fun he => ho' (he ▸ hx)
      obtain ⟨s', hs'', hds'⟩ := hold x hx
      exact ⟨s', by simp [janus_skywayiot_create_session, hxne, hs''], hds'⟩
    · intro x s' hx hd'
      by_cases hxh : x = h'
      · subst hxh
        exact List.mem_cons_self x _
      · simp only [janus_skywayiot_create_session, if_neg hxh] at hx
        exact List.mem_cons_of_mem _ (hlive x s' hx hd')
  · refine ⟨hnr, hno.filter _, ?_, ?_, ?_, ?_⟩
    · intro x hx hxf
      exact hdisj x hx (List.mem_of_mem_filter hxf)
    · intro x hx
      have hxo : x ∉ st.old := hdisj x hx
      obtain ⟨s', hs', hds'⟩ := hreg x hx
      exact ⟨s', by simp [janus_skywayiot_watchdog, hxo, hs'], hds'⟩
    · intro x hx
      obtain ⟨hxo, hpx⟩ := List.mem_filter.mp hx
      have hrc : reclaimableB st now x = false := by simpa using hpx
      obtain ⟨s', hs', hds'⟩ := hold x hxo
      exact ⟨s', by simp [janus_skywayiot_watchdog, hrc, hs'], hds'⟩
    · intro x s' hx hd'
      by_cases hcond : (st.old.contains x && reclaimableB st now x) = true
      · simp only [janus_skywayiot_watchdog, hcond, if_true] at hx
        exact absurd hx (by simp)
      · simp only [janus_skywayiot_watchdog, hcond, if_false] at hx
        exact hlive x s' hx hd'

/-- Witness for C4 on the one-session registry: create handle 1, destroy it
at time 5, and destroying again at time 9 is a no-op. -/
theorem C4_destroy_lifecycle_witness :
    Inv (janus_skywayiot_create_session emptyState 1)
    ∧ (janus_skywayiot_create_session emptyState 1).sess 1 = some freshSession
    ∧ freshSession.destroyed = 0
    ∧ 0 < 5
    ∧ janus_skywayiot_destroy_session
        (janus_skywayiot_destroy_session (janus_skywayiot_create_session emptyState 1) 1 5) 1 9
      = janus_skywayiot_destroy_session (janus_skywayiot_create_session emptyState 1) 1 5 := by
  have hInv : Inv (janus_skywayiot_create_session emptyState 1) := by
    refine ⟨?_, ?_, ?_, ?_, ?_, ?_⟩
    · simp [janus_skywayiot_create_session, emptyState]
    · simp [janus_skywayiot_create_session, emptyState]
    · intro x hx
      simp [janus_skywayiot_create_session, emptyState]
    · intro x hx
      simp only [janus_skywayiot_create_session, emptyState] at hx ⊢
      simp only [List.mem_cons, List.not_mem_nil, or_false] at hx
      subst hx
      exact ⟨freshSession, by simp, rfl⟩
    · intro x hx
      simp [janus_skywayiot_create_session, emptyState] at hx
    · intro x s hx hd
      simp only [janus_skywayiot_create_session, emptyState] at hx ⊢
      by_cases hx1 : x = 1
      · simp [hx1]
      · simp [hx1] at hx
  refine ⟨hInv, rfl, rfl, by omega, ?_⟩
  exact ((C4_destroy_lifecycle (janus_skywayiot_create_session emptyState 1) 1 freshSession
    5 9 hInv rfl rfl (by omega)).1).2.2.2.1

/-! ### String-combinatorics helpers for the SDP rewrite (C6) -/

theorem sub_append_cases {α : Type} (p x y : List α) (h : p <:+: x ++ y) :
    p <:+: x ∨ p <:+: y ∨
      ∃ k, 0 < k ∧ k < p.length ∧ p.take k <:+ x ∧ p.drop k <+: y := by
  obtain ⟨ls, rs, he⟩ := h
  by_cases h1 : ls.length + p.length ≤ x.length
  · left
    have e1 : ((ls ++ p) ++ rs).take x.length = x := by
      rw [he]; exact List.take_left x y
    rw [List.take_append_eq_append_take,
      List.take_of_length_le (show (ls ++ p).length ≤ x.length by simp; omega)] at e1
    exact ⟨ls, rs.take (x.length - (ls ++ p).length), e1⟩
  · by_cases h2 : x.length ≤ ls.length
    · right; left
      have e1 : (ls ++ (p ++ rs)).drop x.length = y := by
        rw [← List.append_assoc, he]; exact List.drop_left x y
      rw [List.drop_append_eq_append_drop,
        Nat.sub_eq_zero_of_le h2, List.drop_zero] at e1
      exact ⟨ls.drop x.length, rs, by rw [List.append_assoc]; exact e1⟩
    · right; right
      have hlt2 : ls.length < x.length := by omega
      have hlt1 : x.length < ls.length + p.length := by omega
      refine ⟨x.length - ls.length, by omega, by omega, ?_, ?_⟩
      · have e1 : (ls ++ (p ++ rs)).take x.length = x := by
          rw [← List.append_assoc, he]; exact List.take_left x y
        rw [List.take_append_eq_append_take,
          List.take_of_length_le (le_of_lt hlt2),
          List.take_append_eq_append_take,
          Nat.sub_eq_zero_of_le (show x.length - ls.length ≤ p.length by omega),
          List.take_zero, List.append_nil] at e1
        exact ⟨ls, e1⟩
      · have e1 : (ls ++ (p ++ rs)).drop x.length = y := by
          rw [← List.append_assoc, he]; exact List.drop_left x y
        rw [List.drop_append_eq_append_drop,
          List.drop_eq_nil_of_le (le_of_lt hlt2), List.nil_append,
          List.drop_append_eq_append_drop,
          Nat.sub_eq_zero_of_le (show x.length - ls.length ≤ p.length by omega),
          List.drop_zero] at e1
        exact ⟨rs, e1⟩

theorem dropPre_of_replace (pat rep q : Sdp)
    (hqr : q.length ≤ rep.length)
    (hdt : ∀ k, k < q.length → 0 < k → q.drop k ≠ rep.take (q.length - k)) :
    ∀ (fuel : Nat) (s : Sdp) (k : Nat), s.length ≤ fuel → 0 < k → k < q.length →
      q.drop k <+: replaceAllAux pat rep fuel s → q.drop k <+: s := by
  intro fuel
  induction fuel with
  | zero =>
    intro s k hs _ _ hpre
    simpa [replaceAllAux] using hpre
  | succ fuel ih =>
    intro s k hs hk0 hkq hpre
    match s with
    | [] => simpa [replaceAllAux] using hpre
    | c :: cs =>
      simp only [replaceAllAux] at hpre
      split at hpre
      · -- a match was replaced: the prefix would have to start inside rep
        exfalso
        have hlen : (q.drop k).length ≤ rep.length := by
          rw [List.length_drop]; omega
        have he : q.drop k = ((rep ++ replaceAllAux pat rep fuel (cs.drop (pat.length - 1)))).take
            (q.drop k).length := List.prefix_iff_eq_take.mp hpre
        rw [List.take_append_eq_append_take, Nat.sub_eq_zero_of_le hlen, List.take_zero,
          List.append_nil, List.length_drop] at he
        exact hdt k hkq hk0 he
      · -- kept character
        have hq : q.drop k = q[k] :: q.drop (k + 1) := List.drop_eq_getElem_cons hkq
        rw [hq] at hpre
        rcases List.cons_prefix_cons.mp hpre with ⟨hqc, htail⟩
        by_cases hk1 : k + 1 < q.length
        · have := ih cs (k + 1) (by simpa using Nat.le_of_succ_le_succ hs) (by omega) hk1 htail
          rw [hq]
          exact List.cons_prefix_cons.mpr ⟨hqc, this⟩
        · have hnil : q.drop (k + 1) = [] := by
            rw [List.drop_eq_nil_iff]
            omega
          rw [hq, hnil]
          exact List.cons_prefix_cons.mpr ⟨hqc, List.nil_prefix⟩

theorem not_sub_replace (pat rep q : Sdp)
    (hq : q ≠ [])
    (hqr : q.length ≤ rep.length)
    (h3 : ¬ q <:+: rep)
    (h4 : ∀ k, k < q.length → 0 < k → ¬ q.take k <:+ rep)
    (hdt : ∀ k, k < q.length → 0 < k → q.drop k ≠ rep.take (q.length - k)) :
    ∀ (fuel : Nat) (s : Sdp), s.length ≤ fuel →
      ¬ q <:+: s → ¬ q <:+: replaceAllAux pat rep fuel s := by
  intro fuel
  induction fuel with
  | zero =>
    intro s hs hns
    simpa [replaceAllAux] using hns
  | succ fuel ih =>
    intro s hs hns
    match s with
    | [] => simpa [replaceAllAux] using hns
    | c :: cs =>
      have hs' : cs.length ≤ fuel := by
        simp only [List.length_cons] at hs
        omega
      simp only [replaceAllAux]
      split
      · -- replaced a match
        intro hocc
        rcases sub_append_cases q rep _ hocc with hrep | hrest | ⟨k, hk0, hkq, hksuf, _⟩
        · exact h3 hrep
        · have hnd : ¬ q <:+: cs.drop (pat.length - 1) := fun hcc =>
            hns (hcc.trans (((List.drop_suffix _ _).trans (List.suffix_cons c cs)).isInfix))
          have hlend : (cs.drop (pat.length - 1)).length ≤ fuel := by
            rw [List.length_drop]
            omega
          exact ih (cs.drop (pat.length - 1)) hlend hnd hrest
        · exact h4 k hkq hk0 hksuf
      · -- kept character
        intro hocc
        rcases List.infix_cons_iff.mp hocc with hpre | hrest
        · obtain ⟨qh, qt, rfl⟩ : ∃ a l, q = a :: l := by
            cases q with
            | nil => exact absurd rfl hq
            | cons a l => exact ⟨a, l, rfl⟩
          rcases List.cons_prefix_cons.mp hpre with ⟨hqc, htail⟩
          subst hqc
          by_cases hq1 : qt = []
          · subst hq1
            exact hns ⟨[], cs, by simp⟩
          · have hlen1 : 1 < (qh :: qt).length := by
              cases qt with
              | nil => exact absurd rfl hq1
              | cons a b => simp
            have hdp : (qh :: qt).drop 1 <+: cs :=
              dropPre_of_replace pat rep (qh :: qt) hqr hdt fuel cs 1 hs' (by omega) hlen1 htail
            have hdp' : qt <+: cs := hdp
            exact hns (List.cons_prefix_cons.mpr ⟨rfl, hdp'⟩).isInfix
        · have hnc : ¬ q <:+: cs := fun hcc => hns (List.infix_cons hcc)
          exact ih cs hs' hnc hrest

theorem no_pat_left (pat rep : Sdp)
    (hp : pat ≠ [])
    (hpr : pat.length ≤ rep.length)
    (h3 : ¬ pat <:+: rep)
    (h4 : ∀ k, k < pat.length → 0 < k → ¬ pat.take k <:+ rep)
    (hdt : ∀ k, k < pat.length → 0 < k → pat.drop k ≠ rep.take (pat.length - k)) :
    ∀ (fuel : Nat) (s : Sdp), s.length ≤ fuel → ¬ pat <:+: replaceAllAux pat rep fuel s := by
  intro fuel
  induction fuel with
  | zero =>
    intro s hs
    have hnil : s = [] := List.length_eq_zero.mp (Nat.le_zero.mp hs)
    subst hnil
    simp [replaceAllAux, List.infix_nil, hp]
  | succ fuel ih =>
    intro s hs
    match s with
    | [] => simp [replaceAllAux, List.infix_nil, hp]
    | c :: cs =>
      have hs' : cs.length ≤ fuel := by
        simp only [List.length_cons] at hs
        omega
      simp only [replaceAllAux]
      split
      · intro hocc
        rcases sub_append_cases pat rep _ hocc with hrep | hrest | ⟨k, hk0, hkq, hksuf, _⟩
        · exact h3 hrep
        · have hlend : (cs.drop (pat.length - 1)).length ≤ fuel := by
            rw [List.length_drop]
            omega
          exact ih (cs.drop (pat.length - 1)) hlend hrest
        · exact h4 k hkq hk0 hksuf
      · next hcond =>
        have hnp : ¬ pat.isPrefixOf (c :: cs) = true := fun hpp => hcond ⟨hpp, hp⟩
        intro hocc
        rcases List.infix_cons_iff.mp hocc with hpre | hrest
        · obtain ⟨ph, pt, hpe⟩ : ∃ a l, pat = a :: l := by
            cases pat with
            | nil => exact absurd rfl hp
            | cons a l => exact ⟨a, l, rfl⟩
          rw [hpe] at hpre
          rcases List.cons_prefix_cons.mp hpre with ⟨hqc, htail⟩
          by_cases hq1 : pt = []
          · apply hnp
            rw [hpe, hq1, hqc]
            simp [List.isPrefixOf]
          · have hlen1 : 1 < pat.length := by
              rw [hpe]
              cases pt with
              | nil => exact absurd rfl hq1
              | cons a b => simp
            have hdp : pat.drop 1 <+: cs :=
              dropPre_of_replace pat rep pat hpr hdt fuel cs 1 hs' (by omega) hlen1
                (by rw [hpe]; exact htail)
            have hdp' : pt <+: cs := by
              rw [hpe] at hdp
              simpa using hdp
            apply hnp
            rw [hpe]
            exact List.isPrefixOf_iff_prefix.mpr (List.cons_prefix_cons.mpr ⟨hqc, hdp'⟩)
        · exact ih cs hs' hrest

/-- After `a=recvonly` → `a=inactive`, no `a=recvonly` occurrence remains. -/
theorem recvonly_gone (sdp : Sdp) : ¬ recvonlyL <:+: replaceAll recvonlyL inactiveL sdp :=
  no_pat_left recvonlyL inactiveL (by decide) (by decide) (by decide) (by decide) (by decide)
    sdp.length sdp le_rfl

/-- The `a=recvonly` → `a=inactive` rewrite introduces no `a=sendonly`. -/
theorem sendonly_preserved (sdp : Sdp) (h : ¬ sendonlyL <:+: sdp) :
    ¬ sendonlyL <:+: replaceAll recvonlyL inactiveL sdp :=
  not_sub_replace recvonlyL inactiveL sendonlyL (by decide) (by decide) (by decide)
    (by decide) (by decide) sdp.length sdp le_rfl h

/-- The `a=recvonly` → `a=inactive` rewrite introduces no `ulpfec`. -/
theorem ulpfec_preserved_recv (sdp : Sdp) (h : ¬ ulpfecL <:+: sdp) :
    ¬ ulpfecL <:+: replaceAll recvonlyL inactiveL sdp :=
  not_sub_replace recvonlyL inactiveL ulpfecL (by decide) (by decide) (by decide)
    (by decide) (by decide) sdp.length sdp le_rfl h

/-- The `a=sendonly` → `a=recvonly` rewrite introduces no `ulpfec`. -/
theorem ulpfec_preserved_send (sdp : Sdp) (h : ¬ ulpfecL <:+: sdp) :
    ¬ ulpfecL <:+: replaceAll sendonlyL recvonlyL sdp :=
  not_sub_replace sendonlyL recvonlyL ulpfecL (by decide) (by decide) (by decide)
    (by decide) (by decide) sdp.length sdp le_rfl h

/-! ### C6: negotiation type inversion and SDP direction rewrite -/

/-- C6 counterexample: on an SDP carrying both `a=recvonly` and
`a=sendonly`, the source rewrites only the receive-only direction (the
send-only rewrite lives in an else-branch, line 1001), so `a=sendonly`
survives and re-running the rewrite changes the output again. -/
theorem C6_counterexample :
    rewriteSdp bothDirSdp = "v=0\r\na=inactive\r\na=sendonly\r\n".toList
    ∧ strstr (rewriteSdp bothDirSdp) sendonlyL = true
    ∧ rewriteSdp (rewriteSdp bothDirSdp) ≠ rewriteSdp bothDirSdp :=
  ⟨by decide, by decide, by decide⟩

/-- C6 amended: the response to a control message with a negotiation
payload carries the inverted type (offer to answer, answer to offer) and
the rewritten description.  On a payload containing `a=recvonly` (and no
`ulpfec` marker, which would engage the FEC-stripping rules), every
`a=recvonly` is rewritten to `a=inactive` and none remains, so a second
application rewrites no receive-only direction again; when the payload also
contains no `a=sendonly`, the second application is the identity.  A
send-only direction is rewritten to receive-only only when no `a=recvonly`
occurs anywhere in the payload. -/
theorem C6_amended_rewrite :
    ∀ (s : Session) (o : ReqObj) (t : String) (sdp : Sdp) (tx : String),
    checkTypes o = none →
    ((∃ s' pre, handleRequest s (.obj o) (some ⟨t, sdp⟩) tx =
        (s', pre ++ [Out.push (some tx) (Ev.ok (some (invertType t, rewriteSdp sdp)))]))
    ∧ invertType "offer" = some "answer"
    ∧ invertType "answer" = some "offer"
    ∧ (recvonlyL <:+: sdp → ¬ ulpfecL <:+: sdp →
        rewriteSdp sdp = replaceAll recvonlyL inactiveL sdp
        ∧ ¬ recvonlyL <:+: rewriteSdp sdp
        ∧ (¬ sendonlyL <:+: sdp → rewriteSdp (rewriteSdp sdp) = rewriteSdp sdp))
    ∧ (¬ recvonlyL <:+: sdp → sendonlyL <:+: sdp → ¬ ulpfecL <:+: sdp →
        rewriteSdp sdp = replaceAll sendonlyL recvonlyL sdp)) := by
  intro s o t sdp tx hct
  refine ⟨?_, by decide, by decide, ?_, ?_⟩
  · rw [handleRequest_valid_some s o ⟨t, sdp⟩ tx hct]
    exact ⟨_, _, rfl⟩
  · intro hrec hupl
    have h1 : strstr sdp recvonlyL = true := by simp [strstr, hrec]
    have h2 : strstr (replaceAll recvonlyL inactiveL sdp) ulpfecL = false := by
      rw [strstr]
      simp only [decide_eq_false_iff_not]
      exact ulpfec_preserved_recv sdp hupl
    have hs1 : rewriteSdp sdp = replaceAll recvonlyL inactiveL sdp := by
      simp [rewriteSdp, h1, h2]
    refine ⟨hs1, ?_, ?_⟩
    · rw [hs1]
      exact recvonly_gone sdp
    · intro hsend
      rw [hs1]
      have g1 : strstr (replaceAll recvonlyL inactiveL sdp) recvonlyL = false := by
        rw [strstr]
        simp only [decide_eq_false_iff_not]
        exact recvonly_gone sdp
      have g2 : strstr (replaceAll recvonlyL inactiveL sdp) sendonlyL = false := by
        rw [strstr]
        simp only [decide_eq_false_iff_not]
        exact sendonly_preserved sdp hsend
      simp [rewriteSdp, g1, g2, h2]
  · intro hnr hsend hupl
    have h1 : strstr sdp recvonlyL = false := by
      rw [strstr]
      simp only [decide_eq_false_iff_not]
      exact hnr
    have h2 : strstr sdp sendonlyL = true := by simp [strstr, hsend]
    have h3 : strstr (replaceAll sendonlyL recvonlyL sdp) ulpfecL = false := by
      rw [strstr]
      simp only [decide_eq_false_iff_not]
      exact ulpfec_preserved_send sdp hupl
    simp [rewriteSdp, h1, h2, h3]

/-- Witness for C6 on an offer whose SDP carries `a=recvonly` only: the
rewrite is idempotent there. -/
theorem C6_amended_rewrite_witness :
    checkTypes audioTrueObj = none
    ∧ recvonlyL <:+: ("v=0\r\na=recvonly\r\n".toList : Sdp)
    ∧ rewriteSdp (rewriteSdp "v=0\r\na=recvonly\r\n".toList) =
        rewriteSdp "v=0\r\na=recvonly\r\n".toList := by
  refine ⟨rfl, by decide, ?_⟩
  exact ((C6_amended_rewrite s0 audioTrueObj "offer" ("v=0\r\na=recvonly\r\n".toList) "t"
    rfl).2.2.2.1 (by decide) (by decide)).2.2 (by decide)

end SkywayIoT
